import Mathlib

/-!
Verification of the qsingleton crate: a set-once, read-many singleton cell
with a bounded polling wait, attached to a struct by an attribute macro.

The development shallowly embeds `src/src/lib.rs`:
* `SingletonArgs.parse` — the attribute-argument grammar (empty, `arc`,
  `sleep_ms = n`, `arc, sleep_ms = n`), over a token-list model of the
  proc-macro input stream;
* the generated `global()` — a loop of `MAX_RETRIES = 20` observation
  attempts on a `OnceLock`, sleeping for the configured duration after
  every unsuccessful attempt except the last, then failing;
* the generated `init()` — a one-shot `OnceLock::set`, wrapping the value
  in an `Arc` first when the cell was declared with `arc`.
-/

set_option autoImplicit false

namespace QSingleton

/-- A token of the attribute-argument stream, as the `syn` parser in
`SingletonArgs::parse` consumes it: identifiers, `,`, `=`, and integer
literals (modelled by their numeric value). -/
inductive Tok where
  | ident (s : String)
  | comma
  | eq
  | litInt (n : Nat)
deriving DecidableEq, Repr

/-- `LitInt::base10_parse::<u64>`: succeeds exactly when the literal fits
in a `u64`. -/
def base10ParseU64 (n : Nat) : Except String Nat :=
  if n < 2 ^ 64 then .ok n else .error "number too large to fit in target type"

/-- The parsed attribute arguments (`struct SingletonArgs`). -/
structure SingletonArgs where
  use_arc : Bool
  sleep_ms : Option Nat
deriving DecidableEq, Repr

/-- `impl Parse for SingletonArgs` (src/src/lib.rs lines 10-61), returning
the parsed arguments together with the tokens it left unconsumed.
Sequenced helper parses (`Ident`, `Token![=]`, `LitInt`) are written as
nested pattern matches on the token list. -/
def SingletonArgs.parse (input : List Tok) : Except String (SingletonArgs × List Tok) :=
  match input with
  | [] => .ok (⟨false, some 500⟩, [])
  | .ident first_ident :: input =>
    if first_ident = "arc" then
      match input with
      | .comma :: input =>
        match input with
        | [] => .ok (⟨true, some 500⟩, [])
        | .ident param_name :: input =>
          if param_name = "sleep_ms" then
            match input with
            | .eq :: .litInt sleep_value :: input =>
              match base10ParseU64 sleep_value with
              | .ok n => .ok (⟨true, some n⟩, input)
              | .error e => .error e
            | _ => .error "expected token"
          else .error "Expected \x27sleep_ms\x27 parameter"
        | _ => .error "expected identifier"
      | _ => .ok (⟨true, some 500⟩, input)
    else if first_ident = "sleep_ms" then
      match input with
      | .eq :: .litInt sleep_value :: input =>
        match base10ParseU64 sleep_value with
        | .ok n => .ok (⟨false, some n⟩, input)
        | .error e => .error e
      | _ => .error "expected token"
    else .error "Expected \x27arc\x27 or \x27sleep_ms\x27 parameter"
  | _ :: _ => .error "expected identifier"

/-- `parse_macro_input!(args as SingletonArgs)`: runs the parser and
additionally demands that the whole token stream was consumed. -/
def parseAttrArgs (input : List Tok) : Except String SingletonArgs :=
  match SingletonArgs.parse input with
  | .ok (args, []) => .ok args
  | .ok (_, _ :: _) => .error "unexpected token"
  | .error e => .error e

/-- The per-cell constants baked into the generated `impl` block:
`let sleep_duration_ms = args.sleep_ms.unwrap_or(500)` (line 110) and
`const MAX_RETRIES: usize = 20` (lines 121 and 160, identical in the
`arc` and non-`arc` branches). -/
structure GeneratedImpl where
  useArc : Bool
  sleepMs : Nat
  maxRetries : Nat
deriving DecidableEq, Repr

/-- The expansion performed by `singleton` for parsed arguments `args`. -/
def singletonExpand (args : SingletonArgs) : GeneratedImpl :=
  { useArc := args.use_arc
    sleepMs := args.sleep_ms.getD 500
    maxRetries := 20 }

/-- `const MAX_RETRIES: usize = 20;` -/
def MAX_RETRIES : Nat := 20

/-- The error value carried out of a failed `global()` call (the code
panics; the panic message arguments are the cell name, `MAX_RETRIES`, and
the sleep duration in ms). -/
inductive SingletonError where
  | uninitialized (name : String) (retries : Nat) (sleepMs : Nat)
deriving DecidableEq, Repr

/-- The panic message format of `global()` (lines 134-139 and 173-178). -/
def SingletonError.message : SingletonError → String
  | .uninitialized name retries sleepMs =>
    "Singleton \x27" ++ name ++ "\x27 not initialized after " ++ toString retries ++
      " retries (" ++ toString sleepMs ++ "ms each). Call init() first."

/-- The observable outcome of one `global()` call: its result, how many
times it read the `OnceLock` (`attempts`), and how many times it slept
(`sleeps`). -/
structure ReadTrace (α : Type) where
  result : Except SingletonError α
  attempts : Nat
  sleeps : Nat
deriving Repr

/-- The `for retry in 0..MAX_RETRIES` loop of `global()`
(lines 124-132 / 163-171). `get retry` is what `OnceLock::get` returns at
the attempt numbered `retry`; `remaining` counts the loop iterations left
(`MAX_RETRIES - retry` at the top level). After an unsuccessful attempt
the thread sleeps unless `retry < MAX_RETRIES - 1` fails, i.e. on the
final attempt; after the loop the function panics with the
`uninitialized` message. -/
def globalLoop {α : Type} (name : String) (sleepMs : Nat) (get : Nat → Option α) :
    Nat → Nat → ReadTrace α
  | _, 0 => ⟨.error (.uninitialized name MAX_RETRIES sleepMs), 0, 0⟩
  | retry, remaining + 1 =>
    match get retry with
    | some v => ⟨.ok v, 1, 0⟩
    | none =>
      let rest := globalLoop name sleepMs get (retry + 1) remaining
      if retry < MAX_RETRIES - 1 then
        ⟨rest.result, rest.attempts + 1, rest.sleeps + 1⟩
      else
        ⟨rest.result, rest.attempts + 1, rest.sleeps⟩

/-- `pub fn global()` (lines 120-140 / 159-179): run the retry loop from
`retry = 0` with `MAX_RETRIES` iterations available. -/
def global {α : Type} (name : String) (sleepMs : Nat) (get : Nat → Option α) : ReadTrace α :=
  globalLoop name sleepMs get 0 MAX_RETRIES

/-- The outcome of one `init` call: `Ok` on the winning call, the
`expect` panic message (`"Singleton '<name>' already initialized"`) on
every later call. -/
inductive InitResult where
  | ok
  | alreadyPublished (msg : String)
deriving DecidableEq, Repr

/-- `OnceLock::set`: stores the value only when the lock is empty, and
reports whether the store happened; an occupied lock is left unchanged
(the rejected value is returned to the caller, not stored or merged). -/
def onceLockSet {β : Type} (state : Option β) (v : β) : Option β × Bool :=
  match state with
  | none => (some v, true)
  | some w => (some w, false)

/-- `pub fn init(instance: Self)` (lines 143-148 / 182-187): a
`OnceLock::set` whose failure is surfaced via `expect`. `store` is the
stored shape of the supplied value: the value itself in the non-`arc`
cell, `Arc::new` of it in the `arc` cell. -/
def init {α β : Type} (name : String) (store : α → β) (state : Option β) (inst : α) :
    Option β × InitResult :=
  match onceLockSet state (store inst) with
  | (state, true) => (state, .ok)
  | (state, false) =>
    (state, .alreadyPublished ("Singleton \x27" ++ name ++ "\x27 already initialized"))

/-- A sequence of `init` calls on one cell, applied in order; returns the
final cell state and each call's outcome. -/
def initSeq {α β : Type} (name : String) (store : α → β) (state : Option β) :
    List α → Option β × List InitResult
  | [] => (state, [])
  | v :: vs =>
    let (state, r) := init name store state v
    let (state, rs) := initSeq name store state vs
    (state, r :: rs)

/-- `Arc::new`: the shared, reference-counted immutable handle that the
`arc`-mode `init` wraps the value in (line 144). Two handles are the same
handle exactly when they wrap the same value. -/
structure Arc (α : Type) where
  value : α
deriving DecidableEq, Repr

/-- The non-`arc` cell stores the value bare (line 183). -/
def directStore {α : Type} (v : α) : α := v

/-- The `arc` cell stores `Arc::new(instance)` (line 144). -/
def arcStore {α : Type} (v : α) : Arc α := Arc.mk v

/-- The write-once guarantee of the `static OnceLock` backing a cell
(lines 114 / 153): a time-indexed view of the cell's contents in which a
stored value persists, unchanged, forever after. -/
def MonotoneHistory {β : Type} (h : Nat → Option β) : Prop :=
  ∀ t v, h t = some v → ∀ u, t ≤ u → h u = some v

/-- The spec's reference diagnostic format, written from the spec's words
("Singleton '<name>' not initialized after <max_attempts> retries
(<interval>ms each). Call init() first."), to be compared with the
message the code builds. -/
def specReferenceMessage (name : String) (maxAttempts interval : Nat) : String :=
  "Singleton \x27" ++ name ++ "\x27 not initialized after " ++ toString maxAttempts ++
    " retries (" ++ toString interval ++ "ms each). Call init() first."

/- ### Helper lemmas about the retry loop -/

lemma globalLoop_zero {α : Type} (name : String) (s : Nat) (get : Nat → Option α)
    (retry : Nat) :
    globalLoop name s get retry 0 = ⟨.error (.uninitialized name MAX_RETRIES s), 0, 0⟩ := rfl

lemma globalLoop_succ_some {α : Type} (name : String) (s : Nat) (get : Nat → Option α)
    (retry n : Nat) (v : α) (h : get retry = some v) :
    globalLoop name s get retry (n + 1) = ⟨.ok v, 1, 0⟩ := by
  simp only [globalLoop, h]

lemma globalLoop_succ_none {α : Type} (name : String) (s : Nat) (get : Nat → Option α)
    (retry n : Nat) (h : get retry = none) :
    globalLoop name s get retry (n + 1) =
      (let rest := globalLoop name s get (retry + 1) n
       if retry < MAX_RETRIES - 1 then
         ⟨rest.result, rest.attempts + 1, rest.sleeps + 1⟩
       else
         ⟨rest.result, rest.attempts + 1, rest.sleeps⟩) := by
  simp only [globalLoop, h]

lemma globalLoop_attempts_le {α : Type} (name : String) (s : Nat) (get : Nat → Option α) :
    ∀ remaining retry, (globalLoop name s get retry remaining).attempts ≤ remaining := by
  intro remaining
  induction remaining with
  | zero => intro retry; simp [globalLoop_zero]
  | succ n ih =>
    intro retry
    cases hg : get retry with
    | some v => rw [globalLoop_succ_some name s get retry n v hg]; simp
    | none =>
      rw [globalLoop_succ_none name s get retry n hg]
      by_cases hr : retry < MAX_RETRIES - 1 <;>
        simp [hr] <;> exact ih (retry + 1)

lemma globalLoop_ok_get {α : Type} (name : String) (s : Nat) (get : Nat → Option α) :
    ∀ remaining retry v, (globalLoop name s get retry remaining).result = .ok v →
      ∃ k, get k = some v := by
  intro remaining
  induction remaining with
  | zero => intro retry v h; simp [globalLoop_zero] at h
  | succ n ih =>
    intro retry v h
    cases hg : get retry with
    | some w =>
      rw [globalLoop_succ_some name s get retry n w hg] at h
      simp at h
      exact ⟨retry, h ▸ hg⟩
    | none =>
      rw [globalLoop_succ_none name s get retry n hg] at h
      by_cases hr : retry < MAX_RETRIES - 1 <;> simp [hr] at h <;> exact ih (retry + 1) v h

/-- C1: if the cell is never published, `global()` makes exactly 20
observation attempts, sleeps after every attempt except the final one
(19 sleeps in total), and then fails with the `uninitialized` error
instead of hanging. -/
theorem read_timeout_exact_trace (α : Type) (name : String) (sleepMs : Nat) :
    global (α := α) name sleepMs (fun _ => none) =
      ⟨.error (.uninitialized name 20 sleepMs), 20, 19⟩ := rfl

/-- C4: if the cell is occupied at the first observation attempt,
`global()` returns the stored value on attempt 1 with no sleep, whatever
the configured interval. -/
theorem read_fast_path {α : Type} (name : String) (sleepMs : Nat) (get : Nat → Option α)
    (v : α) (h : get 0 = some v) :
    global name sleepMs get = ⟨.ok v, 1, 0⟩ := by
  show globalLoop name sleepMs get 0 (19 + 1) = _
  exact globalLoop_succ_some name sleepMs get 0 19 v h

/-- Witness for C4 at a concrete occupied cell. -/
theorem read_fast_path_witness :
    global "Config" 500 (fun _ => some 42) = ⟨.ok 42, 1, 0⟩ :=
  read_fast_path "Config" 500 (fun _ => some 42) 42 rfl

/-- C5: when the retry budget is exhausted, the failure carries the
cell's name, the attempt count (20) and the interval, and its message is
exactly the spec's reference format. -/
theorem read_timeout_message (α : Type) (name : String) (sleepMs : Nat) :
    (global (α := α) name sleepMs (fun _ => none)).result =
      .error (.uninitialized name 20 sleepMs) ∧
    (SingletonError.uninitialized name 20 sleepMs).message =
      specReferenceMessage name 20 sleepMs :=
  ⟨rfl, rfl⟩

lemma initSeq_occupied {α β : Type} (name : String) (store : α → β) (w : β) :
    ∀ vs : List α,
      initSeq name store (some w) vs =
        (some w,
          List.replicate vs.length
            (.alreadyPublished ("Singleton \x27" ++ name ++ "\x27 already initialized"))) := by
  intro vs
  induction vs with
  | nil => rfl
  | cons v vs ih => simp [initSeq, init, onceLockSet, ih, List.replicate_succ]

/-- C2: in any nonempty sequence of `init` calls on an empty cell, the
first call succeeds and every later call fails with the
already-initialized error; the stored value is the (stored shape of the)
value of the single successful call, and no rejected value is stored or
merged. -/
theorem publish_exactly_once {α β : Type} (name : String) (store : α → β) (v : α)
    (vs : List α) :
    (initSeq name store none (v :: vs)).1 = some (store v) ∧
    (initSeq name store none (v :: vs)).2 =
      InitResult.ok ::
        List.replicate vs.length
          (.alreadyPublished ("Singleton \x27" ++ name ++ "\x27 already initialized")) := by
  simp [initSeq, init, onceLockSet, initSeq_occupied]

/-- C3: over a write-once cell history, any two `global()` calls that
return a value return the same value, whichever times their observation
attempts read the cell. -/
theorem read_stability {α : Type} (name₁ name₂ : String) (s₁ s₂ : Nat)
    (h : Nat → Option α) (mono : MonotoneHistory h) (t₁ t₂ : Nat) (v₁ v₂ : α)
    (r₁ : (global name₁ s₁ (fun k => h (t₁ + k))).result = .ok v₁)
    (r₂ : (global name₂ s₂ (fun k => h (t₂ + k))).result = .ok v₂) :
    v₁ = v₂ := by
  obtain ⟨k₁, hk₁⟩ := globalLoop_ok_get name₁ s₁ (fun k => h (t₁ + k)) MAX_RETRIES 0 v₁ r₁
  obtain ⟨k₂, hk₂⟩ := globalLoop_ok_get name₂ s₂ (fun k => h (t₂ + k)) MAX_RETRIES 0 v₂ r₂
  rcases le_total (t₁ + k₁) (t₂ + k₂) with hle | hle
  · have := mono (t₁ + k₁) v₁ hk₁ (t₂ + k₂) hle
    rw [this] at hk₂
    exact Option.some.inj hk₂
  · have := mono (t₂ + k₂) v₂ hk₂ (t₁ + k₁) hle
    rw [this] at hk₁
    exact (Option.some.inj hk₁).symm

/-- Witness for C3 at a concrete always-occupied history. -/
theorem read_stability_witness :
    MonotoneHistory (fun _ => some (7 : Nat)) ∧ (7 : Nat) = 7 :=
  ⟨fun _ _ ht _ _ => ht,
    read_stability "A" "B" 500 100 (fun _ => some 7)
      (fun _ _ ht _ _ => ht) 0 1 7 7 rfl rfl⟩

/-- C9: in `arc` mode, `init` stores `Arc::new` of the supplied value
(the wrap happens at publish time) and succeeds on an empty cell, and a
`global()` reading the resulting state returns that same `Arc` handle,
not the bare value. -/
theorem arc_mode_shared_handle {α : Type} (name : String) (sleepMs : Nat) (v : α) :
    (init name arcStore none v).1 = some (Arc.mk v) ∧
    (init name arcStore none v).2 = .ok ∧
    (global name sleepMs (fun _ => (init name arcStore none v).1)).result =
      .ok (Arc.mk v) :=
  ⟨rfl, rfl, rfl⟩

lemma parseAttrArgs_cases (toks : List Tok) (args : SingletonArgs)
    (h : parseAttrArgs toks = .ok args) :
    (toks = [] ∧ args = ⟨false, some 500⟩) ∨
    (toks = [.ident "arc"] ∧ args = ⟨true, some 500⟩) ∨
    (toks = [.ident "arc", .comma] ∧ args = ⟨true, some 500⟩) ∨
    (∃ n, n < 2 ^ 64 ∧
      ((toks = [.ident "sleep_ms", .eq, .litInt n] ∧ args = ⟨false, some n⟩) ∨
       (toks = [.ident "arc", .comma, .ident "sleep_ms", .eq, .litInt n] ∧
         args = ⟨true, some n⟩))) := by
  rcases toks with _ | ⟨s | _ | _ | n, rest⟩
  · simp [parseAttrArgs, SingletonArgs.parse] at h
    exact Or.inl ⟨rfl, h.symm⟩
  · by_cases hs : s = "arc"
    · subst hs
      rcases rest with _ | ⟨s2 | _ | _ | n2, rest2⟩
      · simp [parseAttrArgs, SingletonArgs.parse] at h
        exact Or.inr (Or.inl ⟨rfl, h.symm⟩)
      · simp [parseAttrArgs, SingletonArgs.parse] at h
      · rcases rest2 with _ | ⟨s3 | _ | _ | n3, rest3⟩
        · simp [parseAttrArgs, SingletonArgs.parse] at h
          exact Or.inr (Or.inr (Or.inl ⟨rfl, h.symm⟩))
        · by_cases hp : s3 = "sleep_ms"
          · subst hp
            rcases rest3 with _ | ⟨s4 | _ | _ | n4, rest4⟩
            · simp [parseAttrArgs, SingletonArgs.parse] at h
            · simp [parseAttrArgs, SingletonArgs.parse] at h
            · simp [parseAttrArgs, SingletonArgs.parse] at h
            · rcases rest4 with _ | ⟨s5 | _ | _ | n5, rest5⟩
              · simp [parseAttrArgs, SingletonArgs.parse] at h
              · simp [parseAttrArgs, SingletonArgs.parse] at h
              · simp [parseAttrArgs, SingletonArgs.parse] at h
              · simp [parseAttrArgs, SingletonArgs.parse] at h
              · rcases rest5 with _ | ⟨t6, rest6⟩
                · by_cases hn : n5 < 18446744073709551616
                  · simp [parseAttrArgs, SingletonArgs.parse, base10ParseU64, hn] at h
                    exact Or.inr (Or.inr (Or.inr ⟨n5, hn, Or.inr ⟨rfl, h.symm⟩⟩))
                  · simp [parseAttrArgs, SingletonArgs.parse, base10ParseU64, hn] at h
                · by_cases hn : n5 < 18446744073709551616 <;>
                    simp [parseAttrArgs, SingletonArgs.parse, base10ParseU64, hn] at h
            · simp [parseAttrArgs, SingletonArgs.parse] at h
          · simp [parseAttrArgs, SingletonArgs.parse, hp] at h
        · simp [parseAttrArgs, SingletonArgs.parse] at h
        · simp [parseAttrArgs, SingletonArgs.parse] at h
        · simp [parseAttrArgs, SingletonArgs.parse] at h
      · simp [parseAttrArgs, SingletonArgs.parse] at h
      · simp [parseAttrArgs, SingletonArgs.parse] at h
    · by_cases hsm : s = "sleep_ms"
      · subst hsm
        rcases rest with _ | ⟨s2 | _ | _ | n2, rest2⟩
        · simp [parseAttrArgs, SingletonArgs.parse] at h
        · simp [parseAttrArgs, SingletonArgs.parse] at h
        · simp [parseAttrArgs, SingletonArgs.parse] at h
        · rcases rest2 with _ | ⟨s3 | _ | _ | n3, rest3⟩
          · simp [parseAttrArgs, SingletonArgs.parse] at h
          · simp [parseAttrArgs, SingletonArgs.parse] at h
          · simp [parseAttrArgs, SingletonArgs.parse] at h
          · simp [parseAttrArgs, SingletonArgs.parse] at h
          · rcases rest3 with _ | ⟨t4, rest4⟩
            · by_cases hn : n3 < 18446744073709551616
              · simp [parseAttrArgs, SingletonArgs.parse, base10ParseU64, hn] at h
                exact Or.inr (Or.inr (Or.inr ⟨n3, hn, Or.inl ⟨rfl, h.symm⟩⟩))
              · simp [parseAttrArgs, SingletonArgs.parse, base10ParseU64, hn] at h
            · by_cases hn : n3 < 18446744073709551616 <;>
                simp [parseAttrArgs, SingletonArgs.parse, base10ParseU64, hn] at h
        · simp [parseAttrArgs, SingletonArgs.parse] at h
      · simp [parseAttrArgs, SingletonArgs.parse, hs, hsm] at h
  · simp [parseAttrArgs, SingletonArgs.parse] at h
  · simp [parseAttrArgs, SingletonArgs.parse] at h
  · simp [parseAttrArgs, SingletonArgs.parse] at h

/-- C6 counterexample: `sleep_ms = 0` is not rejected at cell creation —
the parser accepts it and the generated impl uses a zero interval. -/
theorem zero_interval_accepted :
    parseAttrArgs [Tok.ident "sleep_ms", Tok.eq, Tok.litInt 0] = .ok ⟨false, some 0⟩ ∧
    (singletonExpand ⟨false, some 0⟩).sleepMs = 0 :=
  ⟨rfl, rfl⟩

/-- C6 (amended): the poll interval is not validated for positivity —
every value that fits in a `u64`, zero included, is accepted at cell
creation and used verbatim as the interval. -/
theorem interval_not_validated (n : Nat) (hn : n < 2 ^ 64) :
    parseAttrArgs [Tok.ident "sleep_ms", Tok.eq, Tok.litInt n] = .ok ⟨false, some n⟩ ∧
    (singletonExpand ⟨false, some n⟩).sleepMs = n := by
  have hn' : n < 18446744073709551616 := hn
  refine ⟨?_, rfl⟩
  simp [parseAttrArgs, SingletonArgs.parse, base10ParseU64, hn']

/-- Witness for the amended C6 at the non-positive interval `0`. -/
theorem interval_not_validated_witness :
    (0 : Nat) < 2 ^ 64 ∧
    parseAttrArgs [Tok.ident "sleep_ms", Tok.eq, Tok.litInt 0] = .ok ⟨false, some 0⟩ :=
  ⟨by norm_num, (interval_not_validated 0 (by norm_num)).1⟩

/-- C7: every accepted argument list with no `sleep_ms` token (plain
`#[singleton]`, `#[singleton(arc)]`, and the trailing-comma variant)
resolves to the default 500 ms poll interval in the generated impl. -/
theorem default_interval_500 (toks : List Tok) (args : SingletonArgs)
    (h : parseAttrArgs toks = .ok args) (hno : Tok.ident "sleep_ms" ∉ toks) :
    args.sleep_ms = some 500 ∧ (singletonExpand args).sleepMs = 500 := by
  rcases parseAttrArgs_cases toks args h with
    ⟨ht, ha⟩ | ⟨ht, ha⟩ | ⟨ht, ha⟩ | ⟨n, hn, ⟨ht, ha⟩ | ⟨ht, ha⟩⟩
  · subst ha; exact ⟨rfl, rfl⟩
  · subst ha; exact ⟨rfl, rfl⟩
  · subst ha; exact ⟨rfl, rfl⟩
  · subst ht; simp at hno
  · subst ht; simp at hno

/-- Witness for C7 at the `#[singleton(arc)]` argument list. -/
theorem default_interval_500_witness :
    parseAttrArgs [Tok.ident "arc"] = .ok ⟨true, some 500⟩ ∧
    (singletonExpand (⟨true, some 500⟩ : SingletonArgs)).sleepMs = 500 :=
  ⟨rfl, (default_interval_500 [Tok.ident "arc"] ⟨true, some 500⟩ rfl (by decide)).2⟩

/-- C8: the generated impl bakes in `MAX_RETRIES = 20` for every possible
argument combination, `global()` never makes more than 20 observation
attempts, and when the cell is never published it makes exactly 20. -/
theorem max_attempts_fixed (args : SingletonArgs) {α : Type} (name : String)
    (get : Nat → Option α) :
    (singletonExpand args).maxRetries = 20 ∧
    (global name (singletonExpand args).sleepMs get).attempts ≤ 20 ∧
    ((∀ k, get k = none) →
      (global name (singletonExpand args).sleepMs get).attempts = 20) := by
  refine ⟨rfl, globalLoop_attempts_le _ _ _ MAX_RETRIES 0, fun hnone => ?_⟩
  have hg : get = fun _ => none := funext hnone
  subst hg
  rfl

/-- Witness for C8 at `#[singleton(arc, sleep_ms = 250)]` with a cell
that is never published. -/
theorem max_attempts_fixed_witness :
    (∀ k : Nat, (fun _ : Nat => (none : Option Nat)) k = none) ∧
    (global "Config" (singletonExpand ⟨true, some 250⟩).sleepMs
        (fun _ : Nat => (none : Option Nat))).attempts = 20 :=
  ⟨fun _ => rfl,
    (max_attempts_fixed ⟨true, some 250⟩ "Config" (fun _ => none)).2.2 (fun _ => rfl)⟩

/-- C10 counterexample: the parser also accepts `arc,` (a trailing comma
after `arc`), a token list of length 2 — none of the four claimed shapes,
whose token lists have lengths 0, 1, 3 and 5. -/
theorem attr_args_trailing_comma_accepted :
    parseAttrArgs [Tok.ident "arc", Tok.comma] = .ok ⟨true, some 500⟩ ∧
    [Tok.ident "arc", Tok.comma].length = 2 :=
  ⟨rfl, rfl⟩

/-- C10 (amended): the parser accepts exactly five token shapes — empty,
`arc`, `arc,`, `sleep_ms = n`, and `arc, sleep_ms = n` (with `n` fitting
in a `u64`) — and rejects everything else; in particular any other
leading identifier, any parameter other than `sleep_ms` after `arc`, and
`arc` following `sleep_ms` are rejected. -/
theorem attr_args_accepted_iff (toks : List Tok) :
    (∃ args, parseAttrArgs toks = .ok args) ↔
      (toks = [] ∨ toks = [Tok.ident "arc"] ∨ toks = [Tok.ident "arc", Tok.comma] ∨
        ∃ n, n < 2 ^ 64 ∧
          (toks = [Tok.ident "sleep_ms", Tok.eq, Tok.litInt n] ∨
           toks = [Tok.ident "arc", Tok.comma, Tok.ident "sleep_ms", Tok.eq, Tok.litInt n])) := by
  constructor
  · rintro ⟨args, h⟩
    rcases parseAttrArgs_cases toks args h with
      ⟨ht, _⟩ | ⟨ht, _⟩ | ⟨ht, _⟩ | ⟨n, hn, ⟨ht, _⟩ | ⟨ht, _⟩⟩
    · exact Or.inl ht
    · exact Or.inr (Or.inl ht)
    · exact Or.inr (Or.inr (Or.inl ht))
    · exact Or.inr (Or.inr (Or.inr ⟨n, hn, Or.inl ht⟩))
    · exact Or.inr (Or.inr (Or.inr ⟨n, hn, Or.inr ht⟩))
  · rintro (rfl | rfl | rfl | ⟨n, hn, rfl | rfl⟩)
    · exact ⟨⟨false, some 500⟩, rfl⟩
    · exact ⟨⟨true, some 500⟩, rfl⟩
    · exact ⟨⟨true, some 500⟩, rfl⟩
    · refine ⟨⟨false, some n⟩, ?_⟩
      have hn' : n < 18446744073709551616 := hn
      simp [parseAttrArgs, SingletonArgs.parse, base10ParseU64, hn']
    · refine ⟨⟨true, some n⟩, ?_⟩
      have hn' : n < 18446744073709551616 := hn
      simp [parseAttrArgs, SingletonArgs.parse, base10ParseU64, hn']

end QSingleton
